import Mathlib

/-!
A shallow embedding of the CHIP-8 interpreter core (`src/chip8/src/lib.rs`)
and proofs about it.

Modelling conventions:
- Machine integers (`u8`, `u16`) become `Nat` with an explicit `% 256` /
  `% 65536` wherever the Rust code can wrap; bitwise operators map to the
  `Nat` bitwise operators.
- The byte array `memory`, the register file and the packed `display`
  bitmap become total functions `Nat → Nat` updated pointwise; `stack`
  (a `Vec<u16>` used only through `push`/`pop` at the end) becomes a
  `List Nat` whose head is the top of the stack.
- `ThreadRng` becomes a stream of pre-drawn bytes (`rng : List Nat`)
  consumed by the random opcode.
- Fallible code returns `Except Fault _`.  `Fault.invalidOp` and
  `Fault.oobPC` model the two `Err(String)` values produced by `step` and
  `frame` (the former carries the four hex nibbles the Rust message
  formats), `Fault.capacity` models the ROM-too-large error of `load_rom`,
  and `Fault.panicked` models a Rust panic (array index out of bounds, or
  `Option::unwrap` on `None`).  `Fault.fuel` is an artifact of embedding
  the `while` loop of `frame` with explicit fuel; it is proved unreachable.
-/

/-- The distinct ways execution of the embedded interpreter can fail. -/
inductive Fault
  | invalidOp (h0 l0 h1 l1 : Nat)
  | oobPC
  | capacity
  | fuel
  | panicked
  deriving DecidableEq

/-- `true` for the faults the Rust code reports by returning `Err(..)` from
`frame`/`load_rom`; `false` for `Fault.panicked` (a Rust panic unwinds, it is
not a returned error value) and for the embedding-only `Fault.fuel`. -/
def Fault.isReturnedErr : Fault → Bool
  | .invalidOp _ _ _ _ => true
  | .oobPC => true
  | .capacity => true
  | .fuel => false
  | .panicked => false

/-- Pointwise update of a function, used for all array/register writes. -/
def upd (f : Nat → Nat) (k v : Nat) : Nat → Nat :=
  fun j => if j = k then v else f j

/-- The built-in glyph font, byte for byte the `FONT` constant. -/
def FONT : List Nat :=
  [0xF0, 0x90, 0x90, 0x90, 0xF0,
   0x20, 0x60, 0x20, 0x20, 0x70,
   0xF0, 0x10, 0xF0, 0x80, 0xF0,
   0xF0, 0x10, 0xF0, 0x10, 0xF0,
   0x90, 0x90, 0xF0, 0x10, 0x10,
   0xF0, 0x80, 0xF0, 0x10, 0xF0,
   0xF0, 0x80, 0xF0, 0x90, 0xF0,
   0xF0, 0x10, 0x20, 0x40, 0x40,
   0xF0, 0x90, 0xF0, 0x90, 0xF0,
   0xF0, 0x90, 0xF0, 0x10, 0xF0,
   0xF0, 0x90, 0xF0, 0x90, 0x90,
   0xE0, 0x90, 0xE0, 0x90, 0xE0,
   0xF0, 0x80, 0x80, 0x80, 0xF0,
   0xE0, 0x90, 0x90, 0x90, 0xE0,
   0xF0, 0x80, 0xF0, 0x80, 0xF0,
   0xF0, 0x80, 0xF0, 0x80, 0x80]

def MEMORY_SIZE : Nat := 4096

def RESERVED_MEMORY_SIZE : Nat := 512

def FRAME_DURATION : Nat := 16666

def DISPLAY_WIDTH : Nat := 64

def DISPLAY_HEIGHT : Nat := 32

/-- The interpreter state (the `Chip8` struct). -/
structure Chip8 where
  rng : List Nat
  memory : Nat → Nat
  pc : Nat
  i : Nat
  stack : List Nat
  delay_timer : Nat
  sound_timer : Nat
  registers : Nat → Nat
  display : Nat → Nat
  keypad : Nat

/-- `Chip8::new()`: font copied into `memory[0..80)`, everything else
zeroed, `pc = 512`.  The thread-local RNG is abstracted as an arbitrary
stream of pre-drawn bytes. -/
def chip8New (rng : List Nat) : Chip8 where
  rng := rng
  memory := fun a => if a < FONT.length then FONT.getD a 0 else 0
  pc := RESERVED_MEMORY_SIZE
  i := 0
  stack := []
  delay_timer := 0
  sound_timer := 0
  registers := fun _ => 0
  display := fun _ => 0
  keypad := 0

/-- `Chip8::load_rom`: copies the ROM bytes to `memory[512 .. 512+len)`,
failing when the ROM does not fit. -/
def load_rom (s : Chip8) (rom : List Nat) : Except Fault Chip8 :=
  if MEMORY_SIZE - RESERVED_MEMORY_SIZE < rom.length then .error .capacity
  else
    let mem := fun a =>
      if RESERVED_MEMORY_SIZE ≤ a ∧ a < RESERVED_MEMORY_SIZE + rom.length
      then rom.getD (a - RESERVED_MEMORY_SIZE) 0 else s.memory a
    .ok { s with memory := mem }

/-- The `lo!` macro: low nibble of a byte. -/
def lo (b : Nat) : Nat := b &&& 0x0f

/-- The `hi!` macro: high nibble of a byte. -/
def hi (b : Nat) : Nat := (b &&& 0xf0) >>> 4

/-- The `nnn!` macro: 12-bit address from the low nibble of `op0` and all
of `op1`. -/
def nnn (op0 op1 : Nat) : Nat := ((op0 &&& 0x0f) <<< 8) ||| op1

-- Operation handlers.  Infallible Rust handlers return `Chip8 × Nat`
-- (new state, elapsed time units); handlers that can hit a Rust panic
-- (out-of-bounds array index, unwrap of None) return `Except Fault _`.

/-- `op_cls` (00E0): clear the display. -/
def op_cls (s : Chip8) : Chip8 × Nat :=
  ({ s with display := fun _ => 0 }, 109)

/-- `op_ret` (00EE): pop the stack into PC.  `stack.pop().unwrap()` panics
when the stack is empty. -/
def op_ret (s : Chip8) : Except Fault (Chip8 × Nat) :=
  match s.stack with
  | [] => .error .panicked
  | addr :: rest => .ok ({ s with pc := addr, stack := rest }, 105)

/-- `op_jp` (1nnn). -/
def op_jp (s : Chip8) (addr : Nat) : Chip8 × Nat :=
  ({ s with pc := addr }, 105)

/-- `op_call` (2nnn): push the (already advanced) PC, jump. -/
def op_call (s : Chip8) (addr : Nat) : Chip8 × Nat :=
  ({ s with stack := s.pc :: s.stack, pc := addr }, 105)

/-- `op_se` (3xnn). -/
def op_se (s : Chip8) (vx byte : Nat) : Chip8 × Nat :=
  if s.registers vx = byte then ({ s with pc := (s.pc + 2) % 65536 }, 64)
  else (s, 46)

/-- `op_sne` (4xnn). -/
def op_sne (s : Chip8) (vx byte : Nat) : Chip8 × Nat :=
  if s.registers vx ≠ byte then ({ s with pc := (s.pc + 2) % 65536 }, 64)
  else (s, 46)

/-- `op_sexy` (5xy0). -/
def op_sexy (s : Chip8) (vx vy : Nat) : Chip8 × Nat :=
  if s.registers vx = s.registers vy then
    ({ s with pc := (s.pc + 2) % 65536 }, 82)
  else (s, 64)

/-- `op_ld` (6xnn). -/
def op_ld (s : Chip8) (vx byte : Nat) : Chip8 × Nat :=
  ({ s with registers := upd s.registers vx byte }, 27)

/-- `op_add` (7xnn): wrapping add of an immediate. -/
def op_add (s : Chip8) (vx byte : Nat) : Chip8 × Nat :=
  ({ s with registers := upd s.registers vx ((s.registers vx + byte) % 256) }, 45)

/-- `op_ldxy` (8xy0). -/
def op_ldxy (s : Chip8) (vx vy : Nat) : Chip8 × Nat :=
  ({ s with registers := upd s.registers vx (s.registers vy) }, 200)

/-- `op_orxy` (8xy1). -/
def op_orxy (s : Chip8) (vx vy : Nat) : Chip8 × Nat :=
  ({ s with registers := upd s.registers vx (s.registers vx ||| s.registers vy) }, 200)

/-- `op_andxy` (8xy2). -/
def op_andxy (s : Chip8) (vx vy : Nat) : Chip8 × Nat :=
  ({ s with registers := upd s.registers vx (s.registers vx &&& s.registers vy) }, 200)

/-- `op_xorxy` (8xy3). -/
def op_xorxy (s : Chip8) (vx vy : Nat) : Chip8 × Nat :=
  ({ s with registers := upd s.registers vx (s.registers vx ^^^ s.registers vy) }, 200)

/-- `op_addxy` (8xy4): `overflowing_add` on `u8` is
`((a + b) % 256, 255 < a + b)`; the result is stored in `vx`, then the
overflow flag in register 15. -/
def op_addxy (s : Chip8) (vx vy : Nat) : Chip8 × Nat :=
  let sum := s.registers vx + s.registers vy
  let regs := upd (upd s.registers vx (sum % 256)) 0xf (if 255 < sum then 1 else 0)
  ({ s with registers := regs }, 200)

/-- `op_subxy` (8xy5): `overflowing_sub` on `u8` (operands are byte
values) is `((a + 256 - b) % 256, a < b)`; flag 0 on borrow, else 1. -/
def op_subxy (s : Chip8) (vx vy : Nat) : Chip8 × Nat :=
  let a := s.registers vx
  let b := s.registers vy
  let regs := upd (upd s.registers vx ((a + 256 - b) % 256)) 0xf (if a < b then 0 else 1)
  ({ s with registers := regs }, 200)

/-- `op_shrxy` (8xy6): logical shift right of `vx`; flag 15 gets the old
LSB.  Takes no `vy`. -/
def op_shrxy (s : Chip8) (vx : Nat) : Chip8 × Nat :=
  let x := s.registers vx
  ({ s with registers := upd (upd s.registers vx (x >>> 1)) 0xf (x &&& 0b00000001) }, 200)

/-- `op_subnxy` (8xy7): `vy - vx` stored into `vx`, same borrow flag
convention as 8xy5. -/
def op_subnxy (s : Chip8) (vx vy : Nat) : Chip8 × Nat :=
  let a := s.registers vy
  let b := s.registers vx
  let regs := upd (upd s.registers vx ((a + 256 - b) % 256)) 0xf (if a < b then 0 else 1)
  ({ s with registers := regs }, 200)

/-- `op_shlxy` (8xyE): `overflowing_shl(1)` truncates to `u8`; flag 15
gets the old MSB shifted down to bit 0.  Takes no `vy`. -/
def op_shlxy (s : Chip8) (vx : Nat) : Chip8 × Nat :=
  let x := s.registers vx
  let regs := upd (upd s.registers vx ((x <<< 1) % 256)) 0xf ((x &&& 0b10000000) >>> 7)
  ({ s with registers := regs }, 200)

/-- `op_snexy` (9xy0). -/
def op_snexy (s : Chip8) (vx vy : Nat) : Chip8 × Nat :=
  if s.registers vx ≠ s.registers vy then
    ({ s with pc := (s.pc + 2) % 65536 }, 82)
  else (s, 64)

/-- `op_ldi` (Annn). -/
def op_ldi (s : Chip8) (addr : Nat) : Chip8 × Nat :=
  ({ s with i := addr }, 55)

/-- `op_jp0` (Bnnn): PC := addr + register 0. -/
def op_jp0 (s : Chip8) (addr : Nat) : Chip8 × Nat :=
  ({ s with pc := (addr + s.registers 0x0) % 65536 }, 105)

/-- `op_rndx` (Cxkk): next RNG byte ANDed with the mask. -/
def op_rndx (s : Chip8) (vx byte : Nat) : Chip8 × Nat :=
  let r := s.rng.headD 0
  ({ s with registers := upd s.registers vx (r &&& byte), rng := s.rng.tail }, 164)

/-- The body of the `for idx in 0..nibble` loop of `op_drw`, iterated
over the remaining row count (second `Nat` argument), starting at sprite
row `idx`.  Carries the display and the `prev` accumulator.  The
loop-invariant values `shift`, `colL` (`display_column_left`) and `colR`
(`display_column_right`) are computed once in `op_drw`, as in the source. -/
def drwLoop (mem : Nat → Nat) (i shift colL colR y : Nat) :
    Nat → Nat → (Nat → Nat) → Nat → ((Nat → Nat) × Nat)
  | _, 0, disp, prev => (disp, prev)
  | idx, n + 1, disp, prev =>
    let dy := (y + idx) % DISPLAY_HEIGHT
    let row := dy * DISPLAY_WIDTH / 8
    let b := mem (i + idx)
    let sl := b >>> shift
    let dL := disp (row + colL) ^^^ sl
    let disp1 := upd disp (row + colL) dL
    let prev1 := prev ||| (dL &&& sl)
    if 0 < shift then
      let sr := (b <<< (8 - shift)) % 256
      let dR := disp1 (row + colR) ^^^ sr
      drwLoop mem i shift colL colR y (idx + 1) n
        (upd disp1 (row + colR) dR) (prev1 ||| (dR &&& sr))
    else
      drwLoop mem i shift colL colR y (idx + 1) n disp1 prev1

/-- `op_drw` (Dxyn).  The sprite reads `memory[self.i + idx]` for
`idx < nibble`; when any of those indices is `≥ 4096` the Rust array
index panics, modelled by the up-front bound test.  Afterwards register
15 is set from the accumulated `prev` value. -/
def op_drw (s : Chip8) (vx vy nibble : Nat) : Except Fault (Chip8 × Nat) :=
  let x := s.registers vx
  let y := s.registers vy
  let display_x := x % DISPLAY_WIDTH
  let shift := x % 8
  let colL := display_x / 8
  let colR := (colL + 1) % (DISPLAY_WIDTH / 8)
  if nibble ≠ 0 ∧ MEMORY_SIZE < s.i + nibble then .error .panicked
  else
    let dp := drwLoop s.memory s.i shift colL colR y 0 nibble s.display 0
    let regs := upd s.registers 0xf (if dp.2 ≠ 0 then 1 else 0)
    .ok ({ s with display := dp.1, registers := regs }, 22734)

/-- `op_skpx` (Ex9E).  `1u16 << x` uses release-mode masking of the shift
amount. -/
def op_skpx (s : Chip8) (vx : Nat) : Chip8 × Nat :=
  let x := s.registers vx
  if s.keypad &&& (1 <<< (x % 16)) ≠ 0 then
    ({ s with pc := (s.pc + 2) % 65536 }, 64)
  else (s, 82)

/-- `op_sknpx` (ExA1). -/
def op_sknpx (s : Chip8) (vx : Nat) : Chip8 × Nat :=
  let x := s.registers vx
  if s.keypad &&& (1 <<< (x % 16)) = 0 then
    ({ s with pc := (s.pc + 2) % 65536 }, 64)
  else (s, 82)

/-- `op_ldxdt` (Fx07). -/
def op_ldxdt (s : Chip8) (vx : Nat) : Chip8 × Nat :=
  ({ s with registers := upd s.registers vx s.delay_timer }, 45)

/-- The `for i in 0..16` scan of `op_ldxk`: first key index (starting at
`i`, for `fuel` more indices) whose keypad bit is set. -/
def scanKeys (keypad : Nat) : Nat → Nat → Option Nat
  | _, 0 => none
  | i, fuel + 1 =>
    if (1 <<< i) &&& keypad ≠ 0 then some i
    else scanKeys keypad (i + 1) fuel

/-- `op_ldxk` (Fx0A): store the first pressed key, or undo the fetch
advance and bill one whole frame budget when none is pressed.  `pc -= 2`
is `u16` arithmetic. -/
def op_ldxk (s : Chip8) (vx : Nat) : Chip8 × Nat :=
  match scanKeys s.keypad 0 16 with
  | some i => ({ s with registers := upd s.registers vx i }, 200)
  | none => ({ s with pc := (s.pc + 65536 - 2) % 65536 }, FRAME_DURATION)

/-- `op_lddtx` (Fx15). -/
def op_lddtx (s : Chip8) (vx : Nat) : Chip8 × Nat :=
  ({ s with delay_timer := s.registers vx }, 45)

/-- `op_ldstx` (Fx18). -/
def op_ldstx (s : Chip8) (vx : Nat) : Chip8 × Nat :=
  ({ s with sound_timer := s.registers vx }, 45)

/-- `op_addix` (Fx1E): wrapping 16-bit add into I. -/
def op_addix (s : Chip8) (vx : Nat) : Chip8 × Nat :=
  ({ s with i := (s.i + s.registers vx) % 65536 }, 86)

/-- `op_ldfx` (Fx29): I := register value × 5 (glyph address). -/
def op_ldfx (s : Chip8) (vx : Nat) : Chip8 × Nat :=
  ({ s with i := s.registers vx * 5 }, 91)

/-- `op_ldbx` (Fx33): BCD of the register value into
`memory[I], memory[I+1], memory[I+2]`; those array indices panic when
`I + 2 ≥ 4096`. -/
def op_ldbx (s : Chip8) (vx : Nat) : Except Fault (Chip8 × Nat) :=
  let x := s.registers vx
  let first := x / 100
  let second := x / 10 % 10
  let third := x % 10
  if MEMORY_SIZE ≤ s.i + 2 then .error .panicked
  else
    let mem := upd (upd (upd s.memory s.i first) (s.i + 1) second) (s.i + 2) third
    .ok ({ s with memory := mem }, 364 + (first + second + third) * 73)

/-- `op_ldix` (Fx55): store registers `0..=vx` to `memory[I..]`; the
write `memory[I + vx]` panics when out of bounds. -/
def op_ldix (s : Chip8) (vx : Nat) : Except Fault (Chip8 × Nat) :=
  if MEMORY_SIZE ≤ s.i + vx then .error .panicked
  else
    let mem := fun a =>
      if s.i ≤ a ∧ a ≤ s.i + vx then s.registers (a - s.i) else s.memory a
    .ok ({ s with memory := mem }, 64 * (vx + 2))

/-- `op_ldxi` (Fx65): load `memory[I..]` into registers `0..=vx`. -/
def op_ldxi (s : Chip8) (vx : Nat) : Except Fault (Chip8 × Nat) :=
  if MEMORY_SIZE ≤ s.i + vx then .error .panicked
  else
    let regs := fun r =>
      if r ≤ vx then s.memory (s.i + r) else s.registers r
    .ok ({ s with registers := regs }, 64 * (vx + 2))

/-- `Chip8::step`: the decoder/dispatcher, arm for arm the Rust `match`.
Note the faithful reproduction of the `0xB` arm: the source compares
`op0 & 0xf0` against `0xB` (decimal 11), which a value of the form
`op0 & 0xf0` (a multiple of 16 below 256) can never equal, so that arm
is dead and `Bnnn` opcodes fall through to the final invalid-opcode
arm. -/
def step (s : Chip8) (op0 op1 : Nat) : Except Fault (Chip8 × Nat) :=
  match op0 &&& 0xf0 with
  | 0x00 =>
    (match op1 with
     | 0xe0 => .ok (op_cls s)
     | 0xee => op_ret s
     | _ => .error (.invalidOp (hi op0) (lo op0) (hi op1) (lo op1)))
  | 0x10 => .ok (op_jp s (nnn op0 op1))
  | 0x20 => .ok (op_call s (nnn op0 op1))
  | 0x30 => .ok (op_se s (lo op0) op1)
  | 0x40 => .ok (op_sne s (lo op0) op1)
  | 0x50 => .ok (op_sexy s (lo op0) (hi op1))
  | 0x60 => .ok (op_ld s (lo op0) op1)
  | 0x70 => .ok (op_add s (lo op0) op1)
  | 0x80 =>
    (match op1 &&& 0x0f with
     | 0x00 => .ok (op_ldxy s (lo op0) (hi op1))
     | 0x01 => .ok (op_orxy s (lo op0) (hi op1))
     | 0x02 => .ok (op_andxy s (lo op0) (hi op1))
     | 0x03 => .ok (op_xorxy s (lo op0) (hi op1))
     | 0x04 => .ok (op_addxy s (lo op0) (hi op1))
     | 0x05 => .ok (op_subxy s (lo op0) (hi op1))
     | 0x06 => .ok (op_shrxy s (lo op0))
     | 0x07 => .ok (op_subnxy s (lo op0) (hi op1))
     | 0x0E => .ok (op_shlxy s (lo op0))
     | _ => .error (.invalidOp (hi op0) (lo op0) (hi op1) (lo op1)))
  | 0x90 => .ok (op_snexy s (lo op0) (hi op1))
  | 0xA0 => .ok (op_ldi s (nnn op0 op1))
  | 0xB => .ok (op_jp0 s (nnn op0 op1))
  | 0xC0 => .ok (op_rndx s (lo op0) op1)
  | 0xD0 => op_drw s (lo op0) (hi op1) (lo op1)
  | 0xE0 =>
    (match op1 with
     | 0x9E => .ok (op_skpx s (lo op0))
     | 0xA1 => .ok (op_sknpx s (lo op0))
     | _ => .error (.invalidOp (hi op0) (lo op0) (hi op1) (lo op1)))
  | 0xF0 =>
    (match op1 with
     | 0x07 => .ok (op_ldxdt s (lo op0))
     | 0x0A => .ok (op_ldxk s (lo op0))
     | 0x15 => .ok (op_lddtx s (lo op0))
     | 0x18 => .ok (op_ldstx s (lo op0))
     | 0x1E => .ok (op_addix s (lo op0))
     | 0x29 => .ok (op_ldfx s (lo op0))
     | 0x33 => op_ldbx s (lo op0)
     | 0x55 => op_ldix s (lo op0)
     | 0x65 => op_ldxi s (lo op0)
     | _ => .error (.invalidOp (hi op0) (lo op0) (hi op1) (lo op1)))
  | _ => .error (.invalidOp (hi op0) (lo op0) (hi op1) (lo op1))

/-- The two timer decrements at the top of `Chip8::frame`. -/
def tickTimers (s : Chip8) : Chip8 :=
  { s with
    delay_timer := if s.delay_timer ≠ 0 then s.delay_timer - 1 else s.delay_timer,
    sound_timer := if s.sound_timer ≠ 0 then s.sound_timer - 1 else s.sound_timer }

/-- The `while time > 0` loop of `Chip8::frame`, with explicit fuel (one
unit per loop-condition test).  `Fault.fuel` is proved unreachable for
the fuel `frame` supplies, because every executed operation costs at
least 27 units. -/
def runLoop : Nat → Int → Chip8 → Except Fault Chip8
  | 0, _, _ => .error .fuel
  | fuel + 1, time, s =>
    if time ≤ 0 then .ok s
    else if MEMORY_SIZE - 1 ≤ s.pc then .error .oobPC
    else
      let op0 := s.memory s.pc
      let op1 := s.memory (s.pc + 1)
      match step { s with pc := (s.pc + 2) % 65536 } op0 op1 with
      | .error f => .error f
      | .ok (s', c) => runLoop fuel (time - (c : Int)) s'

/-- `Chip8::frame`: decrement the two timers, then run the budget loop.
619 fuel units allow the 618 = ⌈16666 / 27⌉ possible instruction
executions plus the final loop-condition test. -/
def frame (s : Chip8) : Except Fault Chip8 :=
  runLoop 619 (FRAME_DURATION : Int) (tickTimers s)

/-- The per-byte XOR mask a draw of rows `idx .. idx+n-1` applies to the
display, as a function of the display byte index `j` (used to reason
about `drwLoop`; it mirrors the two shifted writes of each loop
iteration). -/
def drwDelta (mem : Nat → Nat) (i shift colL colR y : Nat) : Nat → Nat → Nat → Nat
  | _, 0, _ => 0
  | idx, n + 1, j =>
    let dy := (y + idx) % DISPLAY_HEIGHT
    let row := dy * DISPLAY_WIDTH / 8
    let b := mem (i + idx)
    ((if j = row + colL then b >>> shift else 0) ^^^
      (if 0 < shift ∧ j = row + colR then (b <<< (8 - shift)) % 256 else 0)) ^^^
    drwDelta mem i shift colL colR y (idx + 1) n j

-- Concrete states used by the closed evaluation theorems below.

/-- A fresh interpreter whose program is `Fx07` (read delay timer into
register 0) followed by `Fx0A` (key wait), with delay timer 5 and no key
pressed. -/
def sC3 : Chip8 :=
  { chip8New [] with
    delay_timer := 5,
    memory := upd (upd (upd (upd (chip8New []).memory 512 0xf0) 513 0x07) 514 0xf0) 515 0x0a }

/-- A fresh interpreter whose program is `00EE` (return) with an empty
call stack. -/
def sC5 : Chip8 :=
  { chip8New [] with memory := upd (chip8New []).memory 513 0xee }

/-- A fresh interpreter whose program is `F00A` (key wait into register
0) with no key pressed. -/
def sC6a : Chip8 :=
  { chip8New [] with memory := upd (upd (chip8New []).memory 512 0xf0) 513 0x0a }

/-- The same program as `sC6a` but with key 2 held (keypad mask 4). -/
def sC6b : Chip8 :=
  { sC6a with keypad := 4 }

/-- A fresh interpreter with register 15 = 1 and register 0 = 1. -/
def sC7 : Chip8 :=
  { chip8New [] with registers := upd (upd (fun _ => 0) 15 1) 0 1 }

/-- A fresh interpreter with register 0 = 200 and register 1 = 100. -/
def sC7w : Chip8 :=
  { chip8New [] with registers := upd (upd (fun _ => 0) 0 200) 1 100 }

/-- The result of one `Dxyn` draw (x = y = 0, one row of the glyph font)
from a fresh interpreter. -/
def drw1 : Chip8 × Nat :=
  match op_drw (chip8New []) 0 1 1 with
  | .ok p => p
  | .error _ => (chip8New [], 0)

/-- The result of executing `6005` (load 5 into register 0) from a fresh
interpreter. -/
def stepLd : Chip8 × Nat :=
  match step (chip8New []) 0x60 0x05 with
  | .ok p => p
  | .error _ => (chip8New [], 0)

/-- The state after loading the two-byte ROM `[1, 2]` into a fresh
interpreter. -/
def romLoaded : Chip8 :=
  match load_rom (chip8New []) [1, 2] with
  | .ok t => t
  | .error _ => chip8New []

-- Helper lemmas.

theorem upd_self (f : Nat → Nat) (k v : Nat) : upd f k v k = v := by
  simp [upd]

theorem upd_ne (f : Nat → Nat) (k v j : Nat) (h : j ≠ k) : upd f k v j = f j := by
  simp [upd, h]

theorem step_eq_ret (s : Chip8) (op0 op1 : Nat)
    (h0 : op0 &&& 0xf0 = 0x00) (h1 : op1 = 0xee) :
    step s op0 op1 = op_ret s := by
  unfold step; simp [h0, h1]

theorem step_eq_shr (s : Chip8) (op0 op1 : Nat)
    (h0 : op0 &&& 0xf0 = 0x80) (h1 : op1 &&& 0x0f = 0x06) :
    step s op0 op1 = .ok (op_shrxy s (lo op0)) := by
  unfold step; simp [h0, h1]

theorem step_eq_shl (s : Chip8) (op0 op1 : Nat)
    (h0 : op0 &&& 0xf0 = 0x80) (h1 : op1 &&& 0x0f = 0x0e) :
    step s op0 op1 = .ok (op_shlxy s (lo op0)) := by
  unfold step; simp [h0, h1]

theorem step_eq_ldxdt (s : Chip8) (op0 op1 : Nat)
    (h0 : op0 &&& 0xf0 = 0xf0) (h1 : op1 = 0x07) :
    step s op0 op1 = .ok (op_ldxdt s (lo op0)) := by
  unfold step; simp [h0, h1]

theorem step_eq_ldxk (s : Chip8) (op0 op1 : Nat)
    (h0 : op0 &&& 0xf0 = 0xf0) (h1 : op1 = 0x0a) :
    step s op0 op1 = .ok (op_ldxk s (lo op0)) := by
  unfold step; simp [h0, h1]

theorem scanKeys_zero (fuel i : Nat) : scanKeys 0 i fuel = none := by
  induction fuel generalizing i with
  | zero => rfl
  | succ n ih => simp [scanKeys, ih]

theorem scanKeys_finds (keypad k : Nat) (hk : keypad.testBit k = true)
    (hlow : ∀ j, j < k → keypad.testBit j = false) :
    ∀ fuel i, i ≤ k → k < i + fuel → scanKeys keypad i fuel = some k := by
  intro fuel
  induction fuel with
  | zero => intro i h1 h2; omega
  | succ n ih =>
    intro i h1 h2
    have hbit : ∀ m, ((1 <<< m) &&& keypad ≠ 0) ↔ keypad.testBit m = true := by
      intro m
      rw [Nat.one_shiftLeft, Nat.two_pow_and]
      cases hb : keypad.testBit m <;> simp [hb]
    rcases Nat.eq_or_lt_of_le h1 with rfl | hlt
    · rw [scanKeys, if_pos ((hbit i).2 hk)]
    · rw [scanKeys, if_neg]
      · exact ih (i + 1) (by omega) (by omega)
      · simp only [hbit]
        simp [hlow i hlt]

theorem ok_snd {x : Chip8 × Nat} {s' : Chip8} {c : Nat}
    (h : (Except.ok x : Except Fault (Chip8 × Nat)) = .ok (s', c)) : c = x.2 := by
  injection h with h
  exact (congrArg Prod.snd h).symm

theorem op_ret_ok {s s' : Chip8} {c : Nat} (h : op_ret s = .ok (s', c)) : c = 105 := by
  unfold op_ret at h
  cases hs : s.stack with
  | nil => rw [hs] at h; exact Except.noConfusion h
  | cons a rest => rw [hs] at h; exact ok_snd h

theorem op_drw_ok {s s' : Chip8} {vx vy n c : Nat}
    (h : op_drw s vx vy n = .ok (s', c)) : c = 22734 := by
  unfold op_drw at h
  split at h
  · exact Except.noConfusion h
  · exact ok_snd h

theorem op_ldbx_ok {s s' : Chip8} {vx c : Nat}
    (h : op_ldbx s vx = .ok (s', c)) : 364 ≤ c := by
  unfold op_ldbx at h
  split at h
  · exact Except.noConfusion h
  · rw [ok_snd h]; omega

theorem op_ldix_ok {s s' : Chip8} {vx c : Nat}
    (h : op_ldix s vx = .ok (s', c)) : c = 64 * (vx + 2) := by
  unfold op_ldix at h
  split at h
  · exact Except.noConfusion h
  · exact ok_snd h

theorem op_ldxi_ok {s s' : Chip8} {vx c : Nat}
    (h : op_ldxi s vx = .ok (s', c)) : c = 64 * (vx + 2) := by
  unfold op_ldxi at h
  split at h
  · exact Except.noConfusion h
  · exact ok_snd h

/-- Every successfully dispatched operation costs at least 27 time units
(27 is the cost of the cheapest handler, `op_ld`). -/
theorem step_cost {s : Chip8} {op0 op1 : Nat} {s' : Chip8} {c : Nat}
    (h : step s op0 op1 = .ok (s', c)) : 27 ≤ c := by
  unfold step at h
  split at h <;> try split at h
  all_goals
    first
      | exact Except.noConfusion h
      | (rw [op_ret_ok h]; omega)
      | (rw [op_drw_ok h]; omega)
      | (have hb := op_ldbx_ok h; omega)
      | (rw [op_ldix_ok h]; omega)
      | (rw [op_ldxi_ok h]; omega)
      | (rw [ok_snd h]
         simp only [op_cls, op_jp, op_call, op_se, op_sne, op_sexy, op_ld, op_add,
           op_ldxy, op_orxy, op_andxy, op_xorxy, op_addxy, op_subxy, op_shrxy,
           op_subnxy, op_shlxy, op_snexy, op_ldi, op_jp0, op_rndx, op_skpx,
           op_sknpx, op_ldxdt, op_ldxk, op_lddtx, op_ldstx, op_addix, op_ldfx,
           FRAME_DURATION]
         repeat' split
         all_goals norm_num)

theorem op_ret_not_fuel (s : Chip8) : op_ret s ≠ .error .fuel := by
  unfold op_ret
  cases s.stack <;> simp

theorem op_drw_not_fuel (s : Chip8) (vx vy n : Nat) :
    op_drw s vx vy n ≠ .error .fuel := by
  unfold op_drw
  split <;> simp

theorem op_ldbx_not_fuel (s : Chip8) (vx : Nat) : op_ldbx s vx ≠ .error .fuel := by
  unfold op_ldbx
  split <;> simp

theorem op_ldix_not_fuel (s : Chip8) (vx : Nat) : op_ldix s vx ≠ .error .fuel := by
  unfold op_ldix
  split <;> simp

theorem op_ldxi_not_fuel (s : Chip8) (vx : Nat) : op_ldxi s vx ≠ .error .fuel := by
  unfold op_ldxi
  split <;> simp

/-- The dispatcher never produces the embedding-only fuel fault. -/
theorem step_not_fuel (s : Chip8) (op0 op1 : Nat) :
    step s op0 op1 ≠ .error .fuel := by
  unfold step
  split <;> try split
  all_goals
    first
      | exact op_ret_not_fuel _
      | exact op_drw_not_fuel _ _ _ _
      | exact op_ldbx_not_fuel _ _
      | exact op_ldix_not_fuel _ _
      | exact op_ldxi_not_fuel _ _
      | simp

/-- Enough fuel for the budget: with a remaining time of at most
`27 * fuel`, the loop never exhausts `fuel + 1` fuel units, because each
executed operation costs at least 27. -/
theorem runLoop_no_fuel (fuel : Nat) :
    ∀ (time : Int) (s : Chip8), time ≤ 27 * fuel →
      runLoop (fuel + 1) time s ≠ .error .fuel := by
  induction fuel with
  | zero =>
    intro time s ht
    unfold runLoop
    rw [if_pos (by omega : time ≤ 0)]
    simp
  | succ n ih =>
    intro time s ht
    unfold runLoop
    by_cases ht0 : time ≤ 0
    · rw [if_pos ht0]; simp
    · rw [if_neg ht0]
      by_cases hpc : MEMORY_SIZE - 1 ≤ s.pc
      · rw [if_pos hpc]; simp
      · rw [if_neg hpc]
        rcases hstep : step { s with pc := (s.pc + 2) % 65536 } (s.memory s.pc)
            (s.memory (s.pc + 1)) with f | sc
        · simp only [hstep]
          intro hcontra
          injection hcontra with hf
          exact step_not_fuel _ _ _ (hstep.trans (by rw [hf]))
        · simp only [hstep]
          obtain ⟨s2, c⟩ := sc
          have hc := step_cost hstep
          exact ih (time - c) s2 (by push_cast at ht; omega)

theorem runLoop_iter (fuel : Nat) (time : Int) (s : Chip8)
    (htime : 0 < time) (hpc : s.pc < MEMORY_SIZE - 1) :
    runLoop (fuel + 1) time s =
      match step { s with pc := (s.pc + 2) % 65536 } (s.memory s.pc)
          (s.memory (s.pc + 1)) with
      | .error f => .error f
      | .ok (s', c) => runLoop fuel (time - (c : Int)) s' := by
  conv_lhs => rw [runLoop]
  rw [if_neg (by omega : ¬time ≤ 0), if_neg (by omega : ¬MEMORY_SIZE - 1 ≤ s.pc)]

theorem runLoop_done (fuel : Nat) (time : Int) (s : Chip8) (htime : time ≤ 0) :
    runLoop (fuel + 1) time s = .ok s := by
  conv_lhs => rw [runLoop]
  rw [if_pos htime]

theorem upd1_xor (disp : Nat → Nat) (pL sl j : Nat) :
    upd disp pL (disp pL ^^^ sl) j = disp j ^^^ (if j = pL then sl else 0) := by
  by_cases hL : j = pL <;> simp [upd, hL]

theorem upd2_xor (disp : Nat → Nat) (pL pR sl sr j : Nat) :
    upd (upd disp pL (disp pL ^^^ sl)) pR
        (upd disp pL (disp pL ^^^ sl) pR ^^^ sr) j =
      disp j ^^^ ((if j = pL then sl else 0) ^^^ (if j = pR then sr else 0)) := by
  by_cases hR : j = pR
  · subst hR
    by_cases hL : j = pL
    · subst hL
      simp [upd, Nat.xor_assoc]
    · simp [upd, hL, Ne.symm hL, Nat.xor_assoc]
  · by_cases hL : j = pL
    · subst hL
      simp [upd, hR, Nat.xor_assoc]
    · simp [upd, hL, hR]

/-- The display after a draw loop is the old display XOR a mask that does
not depend on the display or the collision accumulator. -/
theorem drwLoop_fst (mem : Nat → Nat) (i shift colL colR y : Nat) :
    ∀ (n idx : Nat) (disp : Nat → Nat) (prev j : Nat),
      (drwLoop mem i shift colL colR y idx n disp prev).1 j =
        disp j ^^^ drwDelta mem i shift colL colR y idx n j := by
  intro n
  induction n with
  | zero =>
    intro idx disp prev j
    simp [drwLoop, drwDelta]
  | succ n ih =>
    intro idx disp prev j
    simp only [drwLoop, drwDelta]
    by_cases hs : 0 < shift
    · rw [if_pos hs, ih, upd2_xor, Nat.xor_assoc]
      simp [hs]
    · rw [if_neg hs, ih, upd1_xor, Nat.xor_assoc]
      simp [hs]
-- Claim theorems.

/-- C1: the claim says register 15 is set to 1 after `Dxyn` exactly when
some previously-set framebuffer pixel was cleared by the XOR.  The code
computes the flag from `new AND sprite` after the XOR instead of
`old AND sprite` before it, so the flag actually reports a sprite bit
landing on a clear pixel.  Concretely: from a fresh interpreter (display
all zero, so no collision is possible), drawing the one-row sprite
`0xF0` (the first font byte, I = 0) at x = y = 0 sets display byte 0
from 0 to 0xF0 — only new pixels, nothing cleared — yet register 15
ends as 1, where the claim requires 0. -/
theorem C1_drw_flag_without_collision :
    (chip8New []).display = (fun _ => 0) ∧
    (op_drw (chip8New []) 0 1 1).map
      (fun p => (p.1.registers 15, p.1.display 0)) = .ok (1, 0xf0) :=
  ⟨rfl, rfl⟩

/-- C2: the claim says every opcode with leading nibble 0xB dispatches to
the indexed jump.  The dispatcher compares `op0 &&& 0xf0` against `0xB`
(decimal 11), which a multiple of 16 can never equal, so opcode `B000`
is rejected as invalid instead of jumping; the handler `op_jp0` itself
(second conjunct) would compute PC = addr + register 0 if it were ever
reached. -/
theorem C2_jp0_arm_unreachable :
    step (chip8New []) 0xb0 0x00 = .error (.invalidOp 0xb 0x0 0x0 0x0) ∧
    (op_jp0 { chip8New [] with registers := upd (fun _ => 0) 0 7 } 0x123).1.pc
      = 0x12a :=
  ⟨rfl, rfl⟩

/-- C3 counterexample: `sC3` has delay timer 5 and its next instruction
reads the delay timer into register 0.  The claim predicts the read
observes the pre-decrement value 5; one `frame` call stores 4, because
`frame` decrements the timers before the execution loop, not after. -/
theorem C3_counterexample :
    sC3.delay_timer = 5 ∧ (frame sC3).map (fun t => t.registers 0) = .ok 4 :=
  ⟨rfl, rfl⟩

/-- C3 (amended): within a `frame` call the two timers are decremented
first and instructions run afterwards, so an instruction that reads the
delay timer observes the value after that decrement: for any state with
delay timer `d > 0` whose next instructions are `Fx07` (read delay
timer) and then `Fx0A` with no key pressed (so the budget is exhausted
after the two instructions), the frame stores `d - 1`. -/
theorem C3_timers_tick_before_execution (s : Chip8) (d : Nat)
    (hpc : s.pc < 4093) (hd : s.delay_timer = d) (hd0 : 0 < d)
    (h0 : s.memory s.pc &&& 0xf0 = 0xf0) (h1 : s.memory (s.pc + 1) = 0x07)
    (h2 : s.memory (s.pc + 2) &&& 0xf0 = 0xf0) (h3 : s.memory (s.pc + 3) = 0x0a)
    (hk : s.keypad = 0) :
    ∃ t, frame s = .ok t ∧ t.registers (lo (s.memory s.pc)) = d - 1 ∧
      t.delay_timer = d - 1 := by
  unfold frame
  rw [show (619 : Nat) = 618 + 1 from rfl]
  rw [runLoop_iter _ _ _ (by norm_num [FRAME_DURATION])
    (by simp only [tickTimers]; simp [MEMORY_SIZE]; omega)]
  simp only [tickTimers]
  rw [hd, if_pos (show d ≠ 0 by omega)]
  rw [step_eq_ldxdt _ _ _ h0 h1]
  unfold op_ldxdt
  simp only []
  rw [show (s.pc + 2) % 65536 = s.pc + 2 from by omega]
  rw [show (618 : Nat) = 617 + 1 from rfl]
  rw [runLoop_iter _ _ _ (by norm_num [FRAME_DURATION]) (by simp [MEMORY_SIZE]; omega)]
  simp only []
  rw [show s.pc + 2 + 1 = s.pc + 3 from by omega]
  rw [step_eq_ldxk _ _ _ h2 h3]
  unfold op_ldxk
  simp only [hk, scanKeys_zero]
  rw [show (617 : Nat) = 616 + 1 from rfl]
  rw [runLoop_done _ _ _ (by norm_num [FRAME_DURATION])]
  exact ⟨_, rfl, upd_self _ _ _, rfl⟩

/-- C3 witness: the amended theorem applied to the concrete state `sC3`
(delay timer 5). -/
theorem C3_witness :
    ∃ t, frame sC3 = .ok t ∧ t.registers (lo (sC3.memory sC3.pc)) = 4 ∧
      t.delay_timer = 4 :=
  C3_timers_tick_before_execution sC3 5 (by decide) rfl (by decide)
    (by decide) (by decide) (by decide) (by decide) rfl

/-- C4 counterexample: from a fresh interpreter with an empty ROM loaded,
executing `A000` (I := 0) and then `F033` (BCD of register 0 = 0 into
memory[I..I+2]) overwrites memory byte 0, which held the font byte
0xF0 — so the font region is not immutable under execution. -/
theorem C4_counterexample :
    ((load_rom (chip8New []) []).bind fun s0 =>
      (step s0 0xa0 0x00).bind fun p =>
        (step p.1 0xf0 0x33).map fun q => q.1.memory 0) = .ok 0 ∧
    (chip8New []).memory 0 = 0xf0 :=
  ⟨rfl, rfl⟩

/-- C4 (amended): construction establishes the font in memory bytes
[0, 80) and ROM loading preserves it (a ROM is copied at 512 and above),
but the region is not immutable under instruction execution: store
instructions with I < 80 (for example `Fx33`, see the counterexample)
can overwrite it. -/
theorem C4_font_initialised_and_survives_load :
    (∀ (rng : List Nat) (a : Nat), a < 80 → (chip8New rng).memory a = FONT.getD a 0) ∧
    (∀ (rng rom : List Nat) (s' : Chip8), load_rom (chip8New rng) rom = .ok s' →
      ∀ a, a < 80 → s'.memory a = FONT.getD a 0) := by
  have hfont : ∀ (rng : List Nat) (a : Nat), a < 80 →
      (chip8New rng).memory a = FONT.getD a 0 := by
    intro rng a ha
    show (if a < FONT.length then FONT.getD a 0 else 0) = FONT.getD a 0
    rw [if_pos (by rw [show FONT.length = 80 from rfl]; exact ha)]
  refine ⟨hfont, ?_⟩
  intro rng rom s' hload a ha
  unfold load_rom at hload
  split at hload
  · exact Except.noConfusion hload
  · injection hload with h
    subst h
    show (if RESERVED_MEMORY_SIZE ≤ a ∧ a < RESERVED_MEMORY_SIZE + rom.length
      then rom.getD (a - RESERVED_MEMORY_SIZE) 0 else (chip8New rng).memory a) = _
    rw [if_neg (by simp only [RESERVED_MEMORY_SIZE]; omega)]
    exact hfont rng a ha

/-- C4 witness: the amended theorem at concrete inputs (font byte 5 after
construction; font byte 7 after loading the ROM `[1, 2]`). -/
theorem C4_witness :
    (chip8New []).memory 5 = FONT.getD 5 0 ∧
    romLoaded.memory 7 = FONT.getD 7 0 :=
  ⟨C4_font_initialised_and_survives_load.1 [] 5 (by decide),
   C4_font_initialised_and_survives_load.2 [] [1, 2] romLoaded rfl 7 (by decide)⟩

/-- C5 counterexample: executing `00EE` with an empty call stack makes
`frame` end with the fault that models a Rust panic (the
`stack.pop().unwrap()`), which is not one of the returned `Err` values —
the claim says the underflow is propagated to the caller as a returned
error value. -/
theorem C5_counterexample :
    frame sC5 = .error .panicked ∧ Fault.panicked.isReturnedErr = false :=
  ⟨rfl, rfl⟩

/-- C5 (amended): a return with an empty call stack is fatal — the
`frame` call executes no further instruction — but the failure is a
panic (unwrap of an empty pop), not a `Result::Err` value returned to
the caller. -/
theorem C5_ret_underflow_is_panic (s : Chip8)
    (hstack : s.stack = []) (hpc : s.pc < 4095)
    (h0 : s.memory s.pc &&& 0xf0 = 0x00) (h1 : s.memory (s.pc + 1) = 0xee) :
    frame s = .error .panicked := by
  unfold frame
  rw [show (619 : Nat) = 618 + 1 from rfl]
  rw [runLoop_iter _ _ _ (by norm_num [FRAME_DURATION])
    (by simp only [tickTimers]; simp [MEMORY_SIZE]; omega)]
  simp only [tickTimers]
  rw [step_eq_ret _ _ _ h0 h1]
  unfold op_ret
  simp [hstack]

/-- C5 witness: the amended theorem applied to the concrete state `sC5`
(program `00EE`, empty stack). -/
theorem C5_witness : frame sC5 = .error .panicked :=
  C5_ret_underflow_is_panic sC5 rfl (by decide) (by decide) (by decide)
/-- C6: key-wait semantics of `Fx0A`.  With no key pressed, the
instruction costs one whole frame budget (16666 units, so nothing else
runs in a frame that starts with it) and a `frame` call leaves every
register and the PC unchanged; with some key pressed, the fetch-advanced
`step` succeeds at cost 200, keeps the advanced PC, and stores the index
of the lowest set keypad bit into the target register. -/
theorem C6_keywait (s : Chip8)
    (hpc : s.pc < 4095)
    (h0 : s.memory s.pc &&& 0xf0 = 0xf0) (h1 : s.memory (s.pc + 1) = 0x0a)
    (hkp : s.keypad < 65536) :
    (s.keypad = 0 →
      (op_ldxk s (lo (s.memory s.pc))).2 = FRAME_DURATION ∧
      ∃ t, frame s = .ok t ∧ (∀ r, t.registers r = s.registers r) ∧ t.pc = s.pc) ∧
    (∀ k, s.keypad.testBit k = true → (∀ j, j < k → s.keypad.testBit j = false) →
      ∃ t, step { s with pc := (s.pc + 2) % 65536 } (s.memory s.pc)
            (s.memory (s.pc + 1)) = .ok (t, 200) ∧
          t.pc = (s.pc + 2) % 65536 ∧ t.registers (lo (s.memory s.pc)) = k) := by
  constructor
  · intro hk
    constructor
    · unfold op_ldxk
      rw [hk, scanKeys_zero]
    · unfold frame
      rw [show (619 : Nat) = 618 + 1 from rfl]
      rw [runLoop_iter _ _ _ (by norm_num [FRAME_DURATION])
        (by simp only [tickTimers]; simp [MEMORY_SIZE]; omega)]
      simp only [tickTimers]
      rw [step_eq_ldxk _ _ _ h0 h1]
      unfold op_ldxk
      simp only [hk, scanKeys_zero]
      rw [show (618 : Nat) = 617 + 1 from rfl]
      rw [runLoop_done _ _ _ (by norm_num [FRAME_DURATION])]
      refine ⟨_, rfl, fun r => rfl, ?_⟩
      show ((s.pc + 2) % 65536 + 65536 - 2) % 65536 = s.pc
      omega
  · intro k hbit hlow
    have h2k : (2 : Nat) ^ k ≤ s.keypad := by
      by_contra hlt
      rw [Nat.testBit_lt_two_pow (by omega)] at hbit
      exact Bool.noConfusion hbit
    have hk16 : k < 16 := by
      by_contra hge
      have h16 : (65536 : Nat) ≤ 2 ^ k := by
        calc (65536 : Nat) = 2 ^ 16 := by norm_num
        _ ≤ 2 ^ k := Nat.pow_le_pow_right (by norm_num) (by omega)
      omega
    rw [step_eq_ldxk _ _ _ h0 h1]
    unfold op_ldxk
    rw [show ({ s with pc := (s.pc + 2) % 65536 } : Chip8).keypad = s.keypad from rfl]
    rw [scanKeys_finds s.keypad k hbit hlow 16 0 (by omega) (by omega)]
    exact ⟨_, rfl, rfl, upd_self _ _ _⟩

/-- C6 witness: the theorem applied to `sC6a` (key wait, no key pressed)
and to `sC6b` (key wait with key 2 held, whose lowest set bit is 2). -/
theorem C6_witness :
    ((op_ldxk sC6a (lo (sC6a.memory sC6a.pc))).2 = FRAME_DURATION ∧
      ∃ t, frame sC6a = .ok t ∧ (∀ r, t.registers r = sC6a.registers r) ∧
        t.pc = sC6a.pc) ∧
    (∃ t, step { sC6b with pc := (sC6b.pc + 2) % 65536 } (sC6b.memory sC6b.pc)
          (sC6b.memory (sC6b.pc + 1)) = .ok (t, 200) ∧
        t.pc = (sC6b.pc + 2) % 65536 ∧ t.registers (lo (sC6b.memory sC6b.pc)) = 2) :=
  ⟨(C6_keywait sC6a (by decide) (by decide) (by decide) (by decide)).1 rfl,
   (C6_keywait sC6b (by decide) (by decide) (by decide) (by decide)).2 2
     (by decide) (by decide)⟩

/-- C7 counterexample: the claim quantifies over any registers x, y, but
for x = 15 the flag write overwrites the stored sum: with register 15 = 1
and register 0 = 1, after `8F04` register 15 holds the flag 0, not
(1 + 1) mod 256 = 2. -/
theorem C7_counterexample :
    (op_addxy sC7 15 0).1.registers 15 ≠ (sC7.registers 15 + sC7.registers 0) % 256 := by
  decide

/-- C7 (amended): for `8xy4` with x ≠ 15, register x receives
(a + b) mod 256 and register 15 receives 1 exactly when a + b exceeds
255, else 0 (when x = 15 the later flag write wins, see the
counterexample). -/
theorem C7_addxy_sum_and_flag (s : Chip8) (vx vy : Nat) (hvx : vx ≠ 15) :
    (op_addxy s vx vy).1.registers vx = (s.registers vx + s.registers vy) % 256 ∧
    (op_addxy s vx vy).1.registers 15 =
      (if 255 < s.registers vx + s.registers vy then 1 else 0) ∧
    (op_addxy s vx vy).2 = 200 := by
  unfold op_addxy
  dsimp only
  refine ⟨?_, ?_, rfl⟩
  · rw [upd_ne _ _ _ _ hvx, upd_self]
  · rw [upd_self]

/-- C7 witness: the amended theorem at registers 200 and 100
(sum 300 wraps to 44, flag 1). -/
theorem C7_witness :
    (op_addxy sC7w 0 1).1.registers 0 = (sC7w.registers 0 + sC7w.registers 1) % 256 ∧
    (op_addxy sC7w 0 1).1.registers 15 =
      (if 255 < sC7w.registers 0 + sC7w.registers 1 then 1 else 0) ∧
    (op_addxy sC7w 0 1).2 = 200 :=
  C7_addxy_sum_and_flag sC7w 0 1 (by decide)

/-- C8: drawing the same sprite twice in immediate succession restores
the framebuffer.  Hypotheses state the claim side conditions: the first
draw succeeded, and the values of registers x and y are the same before
each draw (the draw itself never changes memory or I, so the sprite
bytes and base address are automatically unchanged); then the second
draw succeeds and the display returns to its exact prior contents. -/
theorem C8_drw_twice_restores (s : Chip8) (vx vy n : Nat) (s1 : Chip8) (c1 : Nat)
    (h1 : op_drw s vx vy n = .ok (s1, c1))
    (hrx : s1.registers vx = s.registers vx)
    (hry : s1.registers vy = s.registers vy) :
    ∃ s2 c2, op_drw s1 vx vy n = .ok (s2, c2) ∧ s2.display = s.display := by
  simp only [op_drw] at h1
  split at h1
  · exact Except.noConfusion h1
  · injection h1 with hp
    rw [Prod.mk.injEq] at hp
    obtain ⟨hX, hc⟩ := hp
    subst hX
    simp only at hrx hry
    simp only [op_drw]
    simp only [hrx, hry]
    split
    · rename_i hcond hcond2
      exact absurd hcond2 hcond
    · refine ⟨_, _, rfl, ?_⟩
      funext j
      simp only
      rw [drwLoop_fst, drwLoop_fst, Nat.xor_assoc, Nat.xor_self, Nat.xor_zero]

/-- C8 witness: the theorem applied to a fresh interpreter and the
one-row draw whose result is `drw1`. -/
theorem C8_witness :
    ∃ s2 c2, op_drw drw1.1 0 1 1 = .ok (s2, c2) ∧
      s2.display = (chip8New []).display :=
  C8_drw_twice_restores (chip8New []) 0 1 1 drw1.1 drw1.2 rfl
    (by decide) (by decide)
/-- C9: both shifts (`8xy6`, `8xyE`) depend only on the prior value of
register x: two executions whose states differ only in register y
(y ≠ x) and whose opcodes differ only in the y nibble both succeed with
cost 200, store identical values into register x and into the flag
register 15, and leave every register other than x and 15 (in
particular the y operand register) unchanged. -/
theorem C9_shift_ignores_y (s : Chip8) (vx vy w y1 y2 : Nat)
    (hvx : vx < 16) (hy1 : y1 < 16) (hy2 : y2 < 16) (hyx : vy ≠ vx) :
    (∃ t1 t2,
      step s (0x80 ||| vx) ((y1 <<< 4) ||| 0x06) = .ok (t1, 200) ∧
      step { s with registers := upd s.registers vy w }
          (0x80 ||| vx) ((y2 <<< 4) ||| 0x06) = .ok (t2, 200) ∧
      t1.registers vx = t2.registers vx ∧ t1.registers 15 = t2.registers 15 ∧
      (∀ j, j ≠ vx → j ≠ 15 → t1.registers j = s.registers j)) ∧
    (∃ t1 t2,
      step s (0x80 ||| vx) ((y1 <<< 4) ||| 0x0e) = .ok (t1, 200) ∧
      step { s with registers := upd s.registers vy w }
          (0x80 ||| vx) ((y2 <<< 4) ||| 0x0e) = .ok (t2, 200) ∧
      t1.registers vx = t2.registers vx ∧ t1.registers 15 = t2.registers 15 ∧
      (∀ j, j ≠ vx → j ≠ 15 → t1.registers j = s.registers j)) := by
  have e0 : (0x80 ||| vx) &&& 0xf0 = 0x80 :=
    (by decide : ∀ v, v < 16 → (0x80 ||| v) &&& 0xf0 = 0x80) vx hvx
  have elo : lo (0x80 ||| vx) = vx :=
    (by decide : ∀ v, v < 16 → lo (0x80 ||| v) = v) vx hvx
  have e6a : ((y1 <<< 4) ||| 0x06) &&& 0x0f = 0x06 :=
    (by decide : ∀ y, y < 16 → ((y <<< 4) ||| 0x06) &&& 0x0f = 0x06) y1 hy1
  have e6b : ((y2 <<< 4) ||| 0x06) &&& 0x0f = 0x06 :=
    (by decide : ∀ y, y < 16 → ((y <<< 4) ||| 0x06) &&& 0x0f = 0x06) y2 hy2
  have eea : ((y1 <<< 4) ||| 0x0e) &&& 0x0f = 0x0e :=
    (by decide : ∀ y, y < 16 → ((y <<< 4) ||| 0x0e) &&& 0x0f = 0x0e) y1 hy1
  have eeb : ((y2 <<< 4) ||| 0x0e) &&& 0x0f = 0x0e :=
    (by decide : ∀ y, y < 16 → ((y <<< 4) ||| 0x0e) &&& 0x0f = 0x0e) y2 hy2
  have hx2 : upd s.registers vy w vx = s.registers vx := upd_ne _ _ _ _ (Ne.symm hyx)
  constructor
  · rw [step_eq_shr _ _ _ e0 e6a, step_eq_shr _ _ _ e0 e6b]
    unfold op_shrxy
    rw [elo]
    refine ⟨_, _, rfl, rfl, ?_, ?_, ?_⟩
    · simp only [hx2]
      by_cases hx15 : vx = 15
      · subst hx15; rw [upd_self, upd_self]
      · rw [upd_ne _ _ _ _ hx15, upd_ne _ _ _ _ hx15, upd_self, upd_self]
    · dsimp only
      rw [upd_self, upd_self, hx2]
    · intro j hj1 hj2
      dsimp only
      rw [upd_ne _ _ _ _ hj2, upd_ne _ _ _ _ hj1]
  · rw [step_eq_shl _ _ _ e0 eea, step_eq_shl _ _ _ e0 eeb]
    unfold op_shlxy
    rw [elo]
    refine ⟨_, _, rfl, rfl, ?_, ?_, ?_⟩
    · simp only [hx2]
      by_cases hx15 : vx = 15
      · subst hx15; rw [upd_self, upd_self]
      · rw [upd_ne _ _ _ _ hx15, upd_ne _ _ _ _ hx15, upd_self, upd_self]
    · dsimp only
      rw [upd_self, upd_self, hx2]
    · intro j hj1 hj2
      dsimp only
      rw [upd_ne _ _ _ _ hj2, upd_ne _ _ _ _ hj1]

/-- C9 witness: the theorem at a fresh interpreter with x = 0, y = 1,
register 1 changed to 9 in the second run, and y nibbles 1 and 2. -/
theorem C9_witness :
    (∃ t1 t2,
      step (chip8New []) (0x80 ||| 0) ((1 <<< 4) ||| 0x06) = .ok (t1, 200) ∧
      step { chip8New [] with registers := upd (chip8New []).registers 1 9 }
          (0x80 ||| 0) ((2 <<< 4) ||| 0x06) = .ok (t2, 200) ∧
      t1.registers 0 = t2.registers 0 ∧ t1.registers 15 = t2.registers 15 ∧
      (∀ j, j ≠ 0 → j ≠ 15 → t1.registers j = (chip8New []).registers j)) ∧
    (∃ t1 t2,
      step (chip8New []) (0x80 ||| 0) ((1 <<< 4) ||| 0x0e) = .ok (t1, 200) ∧
      step { chip8New [] with registers := upd (chip8New []).registers 1 9 }
          (0x80 ||| 0) ((2 <<< 4) ||| 0x0e) = .ok (t2, 200) ∧
      t1.registers 0 = t2.registers 0 ∧ t1.registers 15 = t2.registers 15 ∧
      (∀ j, j ≠ 0 → j ≠ 15 → t1.registers j = (chip8New []).registers j)) :=
  C9_shift_ignores_y (chip8New []) 0 1 9 1 2 (by decide) (by decide)
    (by decide) (by decide)

/-- C10: every successfully dispatched operation costs at least 27 time
units (so each budget-loop iteration strictly decreases the remaining
time), and `frame` never exhausts its loop fuel of 619 — that is, every
`frame` call finishes after at most 618 = the number of fuel units spent
on executed instructions, matching the bound 16666 / 27 rounded up. -/
theorem C10_cost_bound_and_termination :
    (∀ (s : Chip8) (op0 op1 : Nat) (s' : Chip8) (c : Nat),
      step s op0 op1 = .ok (s', c) → 27 ≤ c) ∧
    (∀ s : Chip8, frame s ≠ .error .fuel) := by
  refine ⟨fun s op0 op1 s' c h => step_cost h, fun s => ?_⟩
  unfold frame
  exact runLoop_no_fuel 618 _ _ (by norm_num [FRAME_DURATION])

/-- C10 witness: the cost bound at the concrete instruction `6005` (the
cheapest operation, cost 27), and termination of `frame` on a fresh
interpreter. -/
theorem C10_witness :
    27 ≤ stepLd.2 ∧ frame (chip8New []) ≠ Except.error Fault.fuel :=
  ⟨C10_cost_bound_and_termination.1 (chip8New []) 0x60 0x05 stepLd.1 stepLd.2 rfl,
   C10_cost_bound_and_termination.2 (chip8New [])⟩
